import Mathlib

/-!
# Verification of the impromptu multi-agent pane orchestrator

Shallow embedding of the impromptu codebase (a tmux-based multi-agent TUI):

* the hook message handler of GeminiAgent (src/impromptu/agent.py) together
  with the status-update pipeline of Sidebar._on_hook_message
  (src/impromptu/ui/sidebar.py) and the socket server's exception barrier
  (src/impromptu/socket_server.py);
* the preview-buffer collapse performed on AfterAgent events
  (src/impromptu/ui/sidebar.py);
* the reactive state store (src/impromptu/state.py);
* the session correlator (src/impromptu/models.py, the poll loop of
  src/impromptu/main.py);
* the pane orchestrator operations of the Sidebar application
  (src/impromptu/ui/sidebar.py) over the tmux pane/window model
  (src/impromptu/tmux.py).

Python dictionaries coming from json.loads are modelled by association
lists of JSON values; Python strings are modelled by Lean strings (or, for
the character-level wrapping code, lists of characters, i.e. code points);
Unix timestamps are modelled in integer milliseconds.
-/

namespace Impromptu

/-! ## JSON values and Python primitive operations

The hook payloads are arbitrary JSON objects.  The handler code accesses
them with dict.get, attribute access, len(), slicing and string methods;
those operations can raise AttributeError or TypeError on unexpected value
shapes, which we model with an Except monad. -/

/-- A JSON value, as produced by json.loads (numbers restricted to the
integers, which is all the hook payloads use). -/
inductive JVal where
  | jstr : String → JVal
  | jnum : Int → JVal
  | jbool : Bool → JVal
  | jnull : JVal
  | jarr : List JVal → JVal
  | jobj : List (String × JVal) → JVal
deriving Repr

/-- Exceptions the Python code under consideration can raise. -/
inductive PyErr where
  | attributeError
  | typeError
deriving Repr, DecidableEq

/-- Association-list lookup: dict access for a JSON object (keys of a dict
produced by json.loads are unique, so first-match lookup is faithful). -/
def lookupJ : List (String × JVal) → String → Option JVal
  | [], _ => none
  | (k, v) :: rest, key => if k = key then some v else lookupJ rest key

/-- message.get(key, default). -/
def getJD (d : List (String × JVal)) (key : String) (dflt : JVal) : JVal :=
  (lookupJ d key).getD dflt

/-- Python truthiness of a JSON value. -/
def truthy : JVal → Bool
  | .jstr s => s ≠ ""
  | .jnum n => n ≠ 0
  | .jbool b => b
  | .jnull => false
  | .jarr l => ¬ l.isEmpty
  | .jobj l => ¬ l.isEmpty

/-- Python equality of a JSON value against a string literal (values of
other types compare unequal without raising). -/
def jeqStr : JVal → String → Bool
  | .jstr s, t => s = t
  | _, _ => false

/-- Python len() -- defined for strings, lists and dicts, TypeError
otherwise. -/
def pyLen : JVal → Except PyErr Nat
  | .jstr s => .ok s.length
  | .jarr l => .ok l.length
  | .jobj l => .ok l.length
  | _ => .error .typeError

/-- The truncation idiom x[:n] + '...' if len(x) > n else x.
len raises TypeError on numbers and booleans; slicing a dict raises
TypeError; list[:n] + '...' raises TypeError (list + str). -/
def pyTrunc (v : JVal) (n : Nat) : Except PyErr JVal := do
  let len ← pyLen v
  if len > n then
    match v with
    | .jstr s => pure (.jstr (s.take n ++ "..."))
    | _ => throw .typeError
  else
    pure v

/-- value.get(key, default) -- attribute access .get is only available on
dicts; AttributeError otherwise. -/
def pyGet (v : JVal) (key : String) (dflt : JVal) : Except PyErr JVal :=
  match v with
  | .jobj d => .ok (getJD d key dflt)
  | _ => .error .attributeError

mutual

/-- Python repr() of a JSON value, as used by f-string interpolation for
container elements (strings quoted). -/
def pyRepr : JVal → String
  | .jstr s => "'" ++ s ++ "'"
  | .jnum n => toString n
  | .jbool b => cond b "True" "False"
  | .jnull => "None"
  | .jarr l => "[" ++ String.intercalate ", " (pyReprList l) ++ "]"
  | .jobj l => "\x7b" ++ String.intercalate ", " (pyReprObj l) ++ "\x7d"

def pyReprList : List JVal → List String
  | [] => []
  | v :: rest => pyRepr v :: pyReprList rest

def pyReprObj : List (String × JVal) → List String
  | [] => []
  | (k, v) :: rest => ("'" ++ k ++ "': " ++ pyRepr v) :: pyReprObj rest

end

/-- Python str() at top level: strings render unquoted. -/
def pyStr : JVal → String
  | .jstr s => s
  | v => pyRepr v

/-- The whitespace characters stripped by Python str.strip(). -/
def isPyWs (c : Char) : Bool :=
  c = ' ' ∨ c = '\t' ∨ c = '\n' ∨ c = '\x0d' ∨ c = '\x0b' ∨ c = '\x0c'

/-- Python str.strip(). -/
def pstrip (s : String) : String :=
  ⟨((s.toList.dropWhile isPyWs).reverse.dropWhile isPyWs).reverse⟩

/-- Python str.startswith, at code-point level. -/
def cStartsWith (s pre : String) : Bool :=
  pre.data.isPrefixOf s.data

/-- Python str.endswith, at code-point level. -/
def cEndsWith (s suf : String) : Bool :=
  suf.data.isSuffixOf s.data

/-- Python s[n:], at code-point level. -/
def cDrop (s : String) (n : Nat) : String :=
  ⟨s.data.drop n⟩

/-- Python s[:n], at code-point level. -/
def cTake (s : String) (n : Nat) : String :=
  ⟨s.data.take n⟩

/-! ## The hook message handler (src/impromptu/agent.py, GeminiAgent.handle_hook)

GeminiAgent.handle_hook inspects a hook payload and returns a pair of an
optional new status and an optional (role, content) display message; it may
also record the session id on the agent (SessionStart).  The dataclass
fields read or written by handle_hook are status and session_id. -/

/-- AgentStatus from src/impromptu/agent.py. -/
inductive AgentStatus where
  | idle
  | busy
  | blocked
  | ready
  | errorState
deriving Repr, DecidableEq

/-- AgentStatus.value (the .value attribute of the Python enum member). -/
def AgentStatus.value : AgentStatus → String
  | .idle => "idle"
  | .busy => "busy"
  | .blocked => "blocked"
  | .ready => "ready"
  | .errorState => "error"

/-- The GeminiAgent dataclass fields consulted by handle_hook: the status
field (initialised to IDLE and, notably, never reassigned anywhere in the
hook pipeline) and the session_id field. -/
structure HAgent where
  status : AgentStatus
  session_id : Option JVal
deriving Repr

/-- A freshly constructed GeminiAgent (status=AgentStatus.IDLE,
session_id=None). -/
def HAgent.init : HAgent := ⟨.idle, none⟩

/-- The [l.strip() for l in text.strip().split(chr 10) if l.strip()]
comprehension of the AfterAgent branch. -/
def stripLines (s : String) : List String :=
  (((pstrip s).splitOn "\n").map pstrip).filter (fun l => l ≠ "")

/-- GeminiAgent.handle_hook (src/impromptu/agent.py, lines 147-240).
Returns the (possibly) updated agent together with the
(new_status, new_message) pair, or the Python exception raised.
The debug append to /tmp/impromptu_after_agent.log in the AfterAgent
branch has no effect on the result and is omitted. -/
def handleHook (a : HAgent) (message : List (String × JVal)) :
    Except PyErr (HAgent × Option AgentStatus × Option (String × JVal)) :=
  let event := getJD message "hook_event_name" (.jstr "")
  if jeqStr event "SessionStart" then
    let sessionId := lookupJ message "session_id"
    let a' :=
      match sessionId with
      | some v =>
          if truthy v && (match a.session_id with
                          | none => true
                          | some w => ! truthy w) then
            { a with session_id := some v }
          else a
      | none => a
    .ok (a', none, none)
  else if jeqStr event "BeforeAgent" then
    let prompt := getJD message "prompt" (.jstr "")
    if truthy prompt then do
      let displayText ← pyTrunc prompt 50
      pure (a, some .busy, some ("user", displayText))
    else
      .ok (a, some .busy, none)
  else if jeqStr event "BeforeModel" then
    .ok (a, none, some ("gemini", .jstr "💭 Thinking..."))
  else if jeqStr event "AfterModel" then do
    let response := getJD message "response" (.jobj [])
    let text0 ← pyGet response "text" (.jstr "")
    let text := if truthy text0 then text0 else getJD message "text" (.jstr "")
    if truthy text then do
      let displayText ← pyTrunc text 50
      pure (a, none, some ("gemini", displayText))
    else
      pure (a, none, none)
  else if jeqStr event "BeforeTool" then
    let toolName := getJD message "tool_name" (.jstr "")
    if truthy toolName then
      .ok (a, none, some ("tool", .jstr ("→ " ++ pyStr toolName)))
    else
      .ok (a, none, none)
  else if jeqStr event "AfterTool" then
    let toolName := getJD message "tool_name" (.jstr "")
    if truthy toolName then
      .ok (a, none, some ("tool", .jstr ("✓ " ++ pyStr toolName)))
    else
      .ok (a, none, none)
  else if jeqStr event "AfterAgent" then
    let text := getJD message "prompt_response" (.jstr "")
    if truthy text then
      match text with
      | .jstr s =>
          let lines := stripLines s
          match lines.getLast? with
          | some lastLine =>
              let displayText :=
                if lastLine.length > 60 then lastLine.take 60 ++ "..." else lastLine
              .ok (a, some .idle, some ("gemini", .jstr displayText))
          | none => .ok (a, some .idle, none)
      | _ => .error .attributeError
    else
      .ok (a, some .idle, none)
  else if jeqStr event "Notification" then
    let notificationType := getJD message "notification_type" (.jstr "")
    if jeqStr notificationType "ToolPermission" then do
      let details := getJD message "details" (.jobj [])
      let toolName ← pyGet details "tool_name" (.jstr "permission")
      pure (a, some .blocked, some ("blocked", .jstr ("⚠ Approval needed: " ++ pyStr toolName)))
    else
      if a.status = .blocked then
        .ok (a, some .busy, none)
      else
        .ok (a, none, none)
  else
    .ok (a, none, none)

/-! ## The status pipeline

Sidebar._on_hook_message (src/impromptu/ui/sidebar.py) calls
agent.handle_hook and, when new_status is not None, writes
new_status.value into the state store entry for the agent's pane.
Crucially, it never writes back to the GeminiAgent.status dataclass field.
An exception escaping handle_hook propagates out of _on_hook_message and
is swallowed by the generic handler of
HookSocketServer._process_message (src/impromptu/socket_server.py), so in
that case no update happens at all. -/

/-- One hook event processed end to end: the GeminiAgent object paired with
the store's status string for its pane. -/
def procStatus (st : HAgent × String) (message : List (String × JVal)) :
    HAgent × String :=
  match handleHook st.1 message with
  | .error _ => st
  | .ok (a', newStatus, _) =>
      (a', match newStatus with
           | some v => v.value
           | none => st.2)

/-- The successive store statuses observed while processing a list of hook
messages. -/
def statusTrace (st : HAgent × String) : List (List (String × JVal)) → List String
  | [] => []
  | m :: rest =>
      let st' := procStatus st m
      st'.2 :: statusTrace st' rest

/-- A JSON value that is a string. -/
def isStrB : JVal → Bool
  | .jstr _ => true
  | _ => false

/-- A JSON value that is an object. -/
def isObjB : JVal → Bool
  | .jobj _ => true
  | _ => false

/-- A response field whose text sub-field, when present, is a string. -/
def respOk : JVal → Bool
  | .jobj o => (match lookupJ o "text" with
                | some w => isStrB w
                | none => true)
  | _ => false

/-- Well-typedness of a hook payload per the wire format: the optional
fields that handle_hook subscripts carry the expected shapes.  The
hook_event_name field itself is unconstrained. -/
def WellTypedPayload (d : List (String × JVal)) : Prop :=
  (∀ v, lookupJ d "prompt" = some v → isStrB v) ∧
  (∀ v, lookupJ d "response" = some v → respOk v) ∧
  (∀ v, lookupJ d "text" = some v → isStrB v) ∧
  (∀ v, lookupJ d "prompt_response" = some v → isStrB v) ∧
  (∀ v, lookupJ d "details" = some v → isObjB v)

/-! ## The AfterAgent preview collapse
(src/impromptu/ui/sidebar.py, Sidebar._on_hook_message, AfterAgent branch)

The wrapping code indexes and slices Python strings character by
character, so here strings are modelled at the code-point level as lists
of characters.  The store's per-agent record carries the fields the branch
reads: messages (a list of (role, content) pairs), pinned_message and
num_lines, as maintained by the sidebar. -/

/-- A Python string at character (code point) level. -/
abbrev PStr := List Char

/-- The per-agent preview state read by the AfterAgent branch. -/
structure AgentPreview where
  messages : List (String × PStr)
  pinned_message : Option (String × PStr)
  num_lines : Nat
deriving Repr

/-- The thinking placeholder message content. -/
def thinkingMarker : PStr := "💭 Thinking...".toList

/-- The fallback scan: for msg in reversed(messages), take the first with
role gemini and content different from the thinking placeholder. -/
def findLastResponse (msgs : List (String × PStr)) : Option (String × PStr) :=
  msgs.reverse.find? (fun m => m.1 == "gemini" && !(m.2 == thinkingMarker))

/-- chunk.rfind(' '): the greatest index of a space character, or -1. -/
def rfindSpace (l : PStr) : Int :=
  match l.reverse.findIdx? (fun c => c = ' ') with
  | some i => (l.length : Int) - 1 - i
  | none => -1

/-- The wrapping loop of the AfterAgent branch: for _ in
range(lines_for_response) over the mutable remaining/is_first pair,
collecting the appended (role, chunk) pairs.  Breaks at the last space of
the width-window when that space lies in its second half, at the hard
width limit otherwise. -/
def wrapLoop (width : Nat) (fuel : Nat) (remaining : PStr) (isFirst : Bool) :
    List (String × PStr) :=
  match fuel with
  | 0 => []
  | Nat.succ f =>
      if remaining.isEmpty then []
      else if remaining.length ≤ width then
        [(cond isFirst "gemini" "continuation", remaining)]
      else
        let chunk := remaining.take width
        let lastSpace := rfindSpace chunk
        if lastSpace > (width : Int) / 2 then
          (cond isFirst "gemini" "continuation", remaining.take lastSpace.toNat) ::
            wrapLoop width f (remaining.drop (lastSpace.toNat + 1)) false
        else
          (cond isFirst "gemini" "continuation", chunk) ::
            wrapLoop width f (remaining.drop width) false

/-- The AfterAgent branch of Sidebar._on_hook_message: collapse the
preview buffer to the pinned prompt plus the final response wrapped over
the agent's remaining preview lines.  cfgWidth is config.sidebar_width;
the code subtracts 4 for padding and prefix. -/
def afterAgentCollapse (cfgWidth : Nat) (st : AgentPreview)
    (newMessage : Option (String × PStr)) : List (String × PStr) :=
  let lastResponse :=
    match newMessage with
    | some m => some m
    | none => findLastResponse st.messages
  let final0 : List (String × PStr) :=
    match st.pinned_message with
    | some p => [p]
    | none => []
  match lastResponse with
  | none => final0
  | some lr =>
      let responseText := lr.2
      let linesForResponse := st.num_lines - final0.length
      if linesForResponse > 0 then
        let sidebarWidth := cfgWidth - 4
        if responseText.length ≤ sidebarWidth then
          final0 ++ [("gemini", responseText)]
        else
          final0 ++ wrapLoop sidebarWidth linesForResponse responseText true
      else final0

/-! ## The reactive state store (src/impromptu/state.py)

StateStore.set_active_agent snapshots the old state, mutates
active_index, current_agent_name and the per-agent status marks, and then
invokes every subscriber -- unconditionally whenever the index is valid.
A notify round is counted by notifyCount; each round is preceded by
exactly one snapshot, so notifyCount also counts snapshots taken by this
operation. -/

/-- AgentUIState (src/impromptu/state.py), the fields set_active_agent
touches or reads. -/
structure AgentUI where
  pane_id : String
  name : String
  status : String
deriving Repr, DecidableEq

/-- UIState (src/impromptu/state.py). -/
structure UIStateM where
  agents : List AgentUI
  active_index : Nat
  notifications : List String
  current_agent_name : String
deriving Repr, DecidableEq

/-- StateStore: the state plus the number of notify rounds performed. -/
structure StoreM where
  state : UIStateM
  notifyCount : Nat
deriving Repr, DecidableEq

/-- The enumerate loop of set_active_agent: the agent at the active index
gets status active, any other agent whose status is active gets idle. -/
def markActive (index : Nat) : Nat → List AgentUI → List AgentUI
  | _, [] => []
  | i, a :: rest =>
      (if i = index then { a with status := "active" }
       else if a.status = "active" then { a with status := "idle" }
       else a) :: markActive index (i + 1) rest

/-- StateStore.set_active_agent (src/impromptu/state.py, lines 210-227):
when the index is in range it snapshots, sets active_index, sets
current_agent_name from the indexed agent, re-marks the statuses and
notifies all subscribers; out of range it does nothing. -/
def setActiveAgent (st : StoreM) (index : Nat) : StoreM :=
  if h : index < st.state.agents.length then
    { state :=
        { agents := markActive index 0 st.state.agents,
          active_index := index,
          notifications := st.state.notifications,
          current_agent_name := (st.state.agents.get ⟨index, h⟩).name },
      notifyCount := st.notifyCount + 1 }
  else st

/-! ## The session correlator
(src/impromptu/models.py: find_session_by_hook, find_session_by_pid,
find_new_session, claim_session; src/impromptu/main.py: _match_sessions)

Timestamps are integer milliseconds; the 0.5 second grace period of
find_new_session is 500.  A session file is its name, its stat mtime and
the parsed startTime of its JSON content (none when missing or
unparseable, which the source skips via except: continue). -/

/-- An on-disk session file as the correlator sees it. -/
structure SessionFile where
  name : String
  mtime : Int
  startTime : Option Int
deriving Repr, DecidableEq

/-- The filesystem/OS environment the strategies consult:
the session-mapping file written by the SessionStart hook (none when the
file does not exist), the chats session directory listing (none when the
directory does not exist), the ps-reported start time of the pane process
(none when ps fails), and the current time. -/
structure FSEnv where
  mappingLines : Option (List String)
  sessionDir : Option (List SessionFile)
  procStart : Option Int
  now : Int
deriving Repr, DecidableEq

/-- The GeminiAgent fields the correlation strategies consult. -/
structure CorrAgent where
  uuid : String
  created_at : Int
  pane_pid : Option Int
  session_path : Option String
deriving Repr, DecidableEq

/-- The glob pattern session-*.json. -/
def matchesSessionGlob (n : String) : Bool :=
  cStartsWith n "session-" && cEndsWith n ".json" &&
    n.length ≥ "session-".length + ".json".length

/-- The glob pattern session-*-PRE.json for a given id PRE. -/
def matchesHookGlob (pre : String) (n : String) : Bool :=
  cStartsWith n "session-" && cEndsWith n ("-" ++ pre ++ ".json") &&
    n.length ≥ "session-".length + ("-" ++ pre ++ ".json").length

/-- GeminiAgent.find_session_by_hook (src/impromptu/models.py, lines
175-211): read the agent's session id from the mapping file, then return
the first directory entry matching session-*-SID8.json where SID8 is the
first 8 characters of the session id.  Deliberately returns the file even
if it is already claimed (see the source comment at line 209). -/
def findSessionByHook (env : FSEnv) (a : CorrAgent) : Option String :=
  match env.mappingLines with
  | none => none
  | some lines =>
      match lines.find? (fun l => cStartsWith (pstrip l) (a.uuid ++ "=")) with
      | none => none
      | some l =>
          let sessionId := cDrop (pstrip l) (a.uuid ++ "=").length
          if sessionId = "" then none
          else
            match env.sessionDir with
            | none => none
            | some files =>
                (files.find? (fun f => matchesHookGlob (cTake sessionId 8) f.name)).map
                  (fun f => f.name)

/-- Python min over (file, mtime) pairs keyed by mtime: the first entry
with minimal mtime. -/
def minByMtime (files : List SessionFile) : Option SessionFile :=
  files.foldl
    (fun best f =>
      match best with
      | none => some f
      | some b => if f.mtime < b.mtime then some f else some b)
    none

/-- GeminiAgent.find_new_session (src/impromptu/models.py, lines 148-173):
after a 500 ms grace period from the agent's creation, the unclaimed
session-*.json file with the earliest mtime that is still at or after the
creation time. -/
def findNewSession (env : FSEnv) (claimed : List String) (a : CorrAgent) : Option String :=
  match env.sessionDir with
  | none => none
  | some files =>
      if env.now - a.created_at < 500 then none
      else
        let newSessions := files.filter (fun f =>
          matchesSessionGlob f.name && f.mtime ≥ a.created_at && ! claimed.contains f.name)
        match minByMtime newSessions with
        | none => none
        | some f => some f.name

/-- One step of the best-delta scan of find_session_by_pid. -/
def pidScanStep (claimed : List String) (procTs : Int)
    (best : Option (String × Int)) (f : SessionFile) : Option (String × Int) :=
  if ! matchesSessionGlob f.name then best
  else if claimed.contains f.name then best
  else
    match f.startTime with
    | none => best
    | some st =>
        if decide (0 ≤ st - procTs) && (match best with
                                        | none => true
                                        | some b => decide (st - procTs < b.2)) then
          some (f.name, st - procTs)
        else best

/-- GeminiAgent.find_session_by_pid (src/impromptu/models.py, lines
235-299): correlate by the ps-reported process start time, choosing the
unclaimed session file whose startTime has the smallest non-negative
delta after the process start. -/
def findSessionByPid (env : FSEnv) (claimed : List String) (a : CorrAgent) : Option String :=
  match a.pane_pid with
  | none => none
  | some _ =>
      match env.sessionDir with
      | none => none
      | some files =>
          match env.procStart with
          | none => none
          | some procTs =>
              (files.foldl (pidScanStep claimed procTs) none).map (fun b => b.1)

/-- GeminiAgent.claim_session (src/impromptu/models.py, lines 301-304):
add the path to the global claimed set and record it on the agent.
Returns the new claimed set and the updated agent. -/
def claimSession (claimed : List String) (a : CorrAgent) (p : String) :
    List String × CorrAgent :=
  ((if claimed.contains p then claimed else claimed ++ [p]),
   { a with session_path := some p })

/-- The loop body of Sidebar._match_sessions (src/impromptu/main.py,
lines 908-933): for each tracked agent without a session, try
find_session_by_hook only, claiming on success. -/
def matchSessionsGo (env : FSEnv) :
    List CorrAgent → List String → List CorrAgent × List String
  | [], claimed => ([], claimed)
  | a :: rest, claimed =>
      if a.session_path.isSome then
        let r := matchSessionsGo env rest claimed
        (a :: r.1, r.2)
      else
        match findSessionByHook env a with
        | some f =>
            let c1 := claimSession claimed a f
            let r := matchSessionsGo env rest c1.1
            (c1.2 :: r.1, r.2)
        | none =>
            let r := matchSessionsGo env rest claimed
            (a :: r.1, r.2)

/-- Sidebar._match_sessions (src/impromptu/main.py, lines 908-933): a
correlation poll tick over the tracked agents; a no-op while polling is
paused. -/
def matchSessions (env : FSEnv) (paused : Bool) (agents : List CorrAgent)
    (claimed : List String) : List CorrAgent × List String :=
  if paused then (agents, claimed) else matchSessionsGo env agents claimed

/-- Modelled from the spec: the priority-ordered strategy chain of
section 4.2 -- hook-reported mapping first, then process-start-time
correlation, then the creation-time heuristic, stopping at the first
success.  (This is what claim C4 asserts the poll performs; it is stated
here for comparison with matchSessions, which the source implements
hook-only.) -/
def tryStrategiesSpec (env : FSEnv) (claimed : List String) (a : CorrAgent) : Option String :=
  match findSessionByHook env a with
  | some f => some f
  | none =>
      match findSessionByPid env claimed a with
      | some f => some f
      | none => findNewSession env claimed a

/-! ## The pane orchestrator
(src/impromptu/ui/sidebar.py: _create_agent, action_switch_agent,
action_close_agent, _on_rename_complete, _get_visible_pane_id, over the
tmux layer of src/impromptu/tmux.py)

Under the orchestrator's operations the store's agent list, the
_agents_by_pane dict and the tmux pane topology evolve in lockstep (an
entry is created and destroyed in all three together), so one list of
pane records carrying the current tmux window index represents all three.
Window 0 is the main (visible) tmux window: Pane.is_in_main_window
compares the pane's window index against 0.  break-pane moves a pane to a
fresh background window (modelled by the nextWindow counter, always at
least 1); join-pane to the sidebar moves a pane into the sidebar's
window.  The sidebar pane itself lives in sidebarWindow and no operation
moves it.  Agent statuses and subscriber notifications of the store are
modelled separately (StoreM above); transient user notifications are
collected in the notifications list.  All tracked panes exist (no
operation below kills a pane externally). -/

/-- One tracked agent pane: its stable tmux pane id, display name,
current tmux window index, agent uuid (socket endpoint name) and claimed
session path. -/
structure APane where
  paneId : Nat
  name : String
  window : Nat
  uuid : Nat
  sessionPath : Option String
deriving Repr, DecidableEq

/-- The orchestrator state: sidebar window, tracked agent panes in store
order, the store's active index, fresh-id counters for panes, background
windows and uuids, the started-and-never-stopped socket servers, the
_socket_servers tracking dict (as the list of its keys), the global
claimed-session set and the transient notifications. -/
structure OState where
  sidebarWindow : Nat
  agents : List APane
  activeIndex : Nat
  nextPane : Nat
  nextWindow : Nat
  nextUuid : Nat
  socketRunning : List Nat
  socketTracked : List Nat
  claimed : List String
  notifications : List String
deriving Repr, DecidableEq

/-- command.split()[0]: the first whitespace-separated token. -/
def exeOf (cmd : String) : Option String :=
  (((cmd.data.splitOn ' ').map (fun l => (⟨l⟩ : String))).filter (fun w => w ≠ "")).head?

/-- shutil.which on the executable of a command, over the environment's
set of available executables. -/
def whichOk (env : List String) (cmd : String) : Bool :=
  match exeOf cmd with
  | some e => env.contains e
  | none => false

/-- Sidebar._get_visible_pane_id: the first store agent whose pane is in
the main window. -/
def findVisible (s : OState) : Option APane :=
  s.agents.find? (fun a => a.window == 0)

/-- The number of agent panes currently in the main (visible) window. -/
def visCount (s : OState) : Nat :=
  (s.agents.filter (fun a => a.window == 0)).length

/-- StateStore.set_active_agent as it acts on the fields of this model:
set the active index when it is in range, otherwise do nothing. -/
def setActiveO (s : OState) (i : Nat) : OState :=
  if i < s.agents.length then { s with activeIndex := i } else s

/-- Sidebar._create_agent (src/impromptu/ui/sidebar.py, lines 432-560),
non-first creation path, plus the Started notification of its caller
_create_agent_pane: validate the executable, locate the visible agent
pane (fail with no mutation when there is none), split a new pane from it
in the main window, break the old visible pane to a fresh background
window, start a socket server for the new agent, add it to the store and
make it active.  Returns the new state and the created pane id (none on
failure). -/
def createAgent (env : List String) (s : OState) (name cmd : String) :
    OState × Option Nat :=
  if cmd ≠ "" ∧ whichOk env cmd = false then
    ({ s with notifications :=
        s.notifications ++ ["Error: Command not found: " ++ cmd] }, none)
  else
    match findVisible s with
    | none => (s, none)
    | some vis =>
        let newPane : APane := ⟨s.nextPane, name, 0, s.nextUuid, none⟩
        let agents1 :=
          (s.agents.map (fun a =>
            if a.paneId == vis.paneId then { a with window := s.nextWindow } else a))
            ++ [newPane]
        ({ sidebarWindow := s.sidebarWindow,
           agents := agents1,
           activeIndex := agents1.length - 1,
           nextPane := s.nextPane + 1,
           nextWindow := s.nextWindow + 1,
           nextUuid := s.nextUuid + 1,
           socketRunning := s.socketRunning ++ [s.nextUuid],
           socketTracked := s.socketTracked ++ [s.nextUuid],
           claimed := s.claimed,
           notifications := s.notifications ++ ["Started: " ++ name] },
         some s.nextPane)

/-- Sidebar.action_switch_agent (src/impromptu/ui/sidebar.py, lines
741-798): out-of-range and already-active indices only notify; a target
already in the main window is only focused and made active; otherwise the
currently visible pane (when the active agent's pane is visible) is
broken to a fresh background window and the target joined beside the
sidebar. -/
def switchTo (s : OState) (i : Nat) : OState :=
  match s.agents.get? i with
  | none => { s with notifications := s.notifications ++ ["No agent"] }
  | some target =>
      if i = s.activeIndex then
        { s with notifications := s.notifications ++ ["Already on " ++ target.name] }
      else if target.window = 0 then
        { setActiveO s i with
          notifications := s.notifications ++ ["Focused " ++ target.name] }
      else
        let joined : OState :=
          { s with
            agents := s.agents.map (fun a =>
              if a.paneId == target.paneId then { a with window := s.sidebarWindow }
              else a),
            activeIndex := i,
            notifications := s.notifications ++ ["Switched to " ++ target.name] }
        match s.agents.get? s.activeIndex with
        | some current =>
            if current.window = 0 then
              { s with
                agents := s.agents.map (fun a =>
                  if a.paneId == current.paneId then { a with window := s.nextWindow }
                  else if a.paneId == target.paneId then { a with window := s.sidebarWindow }
                  else a),
                nextWindow := s.nextWindow + 1,
                activeIndex := i,
                notifications := s.notifications ++ ["Switched to " ++ target.name] }
            else joined
        | none => joined

/-- Sidebar.action_close_agent (src/impromptu/ui/sidebar.py, lines
835-930) at a given list index: closing the sole remaining agent is
routed to the quit confirmation (no mutation here); otherwise the pane is
killed, the agent popped from the tracking dicts (the socket server entry
is popped from _socket_servers but never stopped, and the claimed set is
untouched), removed from the store (with the active-index clamp of
StateStore.remove_agent), and a new active index min(i, len-1) is set. -/
def closeAgent (s : OState) (i : Nat) : OState :=
  match s.agents.get? i with
  | none => { s with notifications := s.notifications ++ ["No agent selected"] }
  | some ag =>
      if s.agents.length ≤ 1 then s
      else
        let agents1 := s.agents.filter (fun a => a.paneId != ag.paneId)
        let active1 :=
          if s.activeIndex ≥ agents1.length then agents1.length - 1 else s.activeIndex
        setActiveO
          { s with
            agents := agents1,
            activeIndex := active1,
            socketTracked := s.socketTracked.filter (fun u => u != ag.uuid),
            notifications := s.notifications ++ ["Closed " ++ ag.name] }
          (min i (agents1.length - 1))

/-- Sidebar._on_rename_complete (src/impromptu/ui/sidebar.py, lines
951-980): a pure name update plus a best-effort pane-title update (no
topology change). -/
def renameAgent (s : OState) (i : Nat) (nm : String) : OState :=
  match s.agents.get? i with
  | none => { s with notifications := s.notifications ++ ["Agent no longer exists"] }
  | some ag =>
      { s with
        agents := s.agents.set i { ag with name := nm },
        notifications := s.notifications ++ ["Renamed to: " ++ nm] }

/-- GeminiAgent.claim_session (src/impromptu/models.py) applied to the
tracked agent at an index (as the correlation poll does on a hook match):
adds the path to the global claimed set and records it on the agent. -/
def claimForAgent (s : OState) (i : Nat) (p : String) : OState :=
  match s.agents.get? i with
  | none => s
  | some ag =>
      { s with
        agents := s.agents.set i { ag with sessionPath := some p },
        claimed := if s.claimed.contains p then s.claimed else s.claimed ++ [p] }

/-- The pane orchestrator operations. -/
inductive Op where
  | create (name cmd : String)
  | switch (i : Nat)
  | close (i : Nat)
  | renameOp (i : Nat) (nm : String)
  | claimOp (i : Nat) (p : String)
deriving Repr, DecidableEq

/-- One orchestrator operation applied to the state. -/
def applyOp (env : List String) (s : OState) : Op → OState
  | .create name cmd => (createAgent env s name cmd).1
  | .switch i => switchTo s i
  | .close i => closeAgent s i
  | .renameOp i nm => renameAgent s i nm
  | .claimOp i p => claimForAgent s i p

/-- The initial one-agent layout built by on_mount: the sidebar in window
0 and the first agent pane (created with split-window -h from the
sidebar) visible in window 0 and active. -/
def initState : OState :=
  { sidebarWindow := 0,
    agents := [⟨1, "gemini", 0, 0, none⟩],
    activeIndex := 0,
    nextPane := 2,
    nextWindow := 1,
    nextUuid := 1,
    socketRunning := [0],
    socketTracked := [0],
    claimed := [],
    notifications := [] }

/-- Run a sequence of orchestrator operations from the initial layout. -/
def runOps (env : List String) (ops : List Op) : OState :=
  ops.foldl (applyOp env) initState

/-- Reachability where closeAgent is only ever invoked on the current
active index (the restriction under which the single-visible-pane
invariant holds; an unrestricted close of a background agent can
desynchronise the active index from the visible pane, see the C1
counterexample). -/
inductive ReachedR (env : List String) : OState → Prop
  | init : ReachedR env initState
  | create {s : OState} (h : ReachedR env s) (name cmd : String) :
      ReachedR env (applyOp env s (.create name cmd))
  | switch {s : OState} (h : ReachedR env s) (i : Nat) :
      ReachedR env (applyOp env s (.switch i))
  | closeActive {s : OState} (h : ReachedR env s) :
      ReachedR env (applyOp env s (.close s.activeIndex))
  | renameR {s : OState} (h : ReachedR env s) (i : Nat) (nm : String) :
      ReachedR env (applyOp env s (.renameOp i nm))
  | claimR {s : OState} (h : ReachedR env s) (i : Nat) (p : String) :
      ReachedR env (applyOp env s (.claimOp i p))

/-- The inductive invariant: the sidebar stays in window 0, background
window indices are at least 1, pane ids are bounded by the counter and
pairwise distinct, and any agent pane in the visible window sits at the
active index. -/
def Inv (s : OState) : Prop :=
  s.sidebarWindow = 0 ∧
  1 ≤ s.nextWindow ∧
  (∀ a ∈ s.agents, a.paneId < s.nextPane) ∧
  (s.agents.map (fun a => a.paneId)).Nodup ∧
  (∀ i a, s.agents.get? i = some a → a.window = 0 → i = s.activeIndex)

/-! ## Theorems -/

theorem pyTrunc_str_eq (s : String) (n : Nat) :
    ∃ t, pyTrunc (.jstr s) n = .ok (.jstr t) := by
  simp only [pyTrunc, pyLen, bind, Except.bind]
  split
  · exact ⟨_, rfl⟩
  · exact ⟨_, rfl⟩

theorem isStrB_elim {v : JVal} (hv : isStrB v = true) : ∃ s, v = .jstr s := by
  cases v with
  | jstr s => exact ⟨s, rfl⟩
  | jnum n => exact Bool.noConfusion hv
  | jbool b => exact Bool.noConfusion hv
  | jnull => exact Bool.noConfusion hv
  | jarr l => exact Bool.noConfusion hv
  | jobj o => exact Bool.noConfusion hv

theorem isObjB_elim {v : JVal} (hv : isObjB v = true) : ∃ o, v = .jobj o := by
  cases v with
  | jobj o => exact ⟨o, rfl⟩
  | jstr s => exact Bool.noConfusion hv
  | jnum n => exact Bool.noConfusion hv
  | jbool b => exact Bool.noConfusion hv
  | jnull => exact Bool.noConfusion hv
  | jarr l => exact Bool.noConfusion hv

theorem pyTrunc_of_isStrB {v : JVal} (hv : isStrB v = true) (n : Nat) :
    ∃ t, pyTrunc v n = .ok (.jstr t) := by
  obtain ⟨s, rfl⟩ := isStrB_elim hv
  exact pyTrunc_str_eq s n

theorem getJD_isStrB {d : List (String × JVal)} {k : String}
    (hk : ∀ v, lookupJ d k = some v → isStrB v = true) (s : String) :
    isStrB (getJD d k (.jstr s)) = true := by
  unfold getJD
  cases hl : lookupJ d k
  · rfl
  · exact hk _ hl

theorem respOk_elim {v : JVal} (h : respOk v = true) :
    ∃ o, v = .jobj o ∧ isStrB (getJD o "text" (.jstr "")) = true := by
  cases v with
  | jobj o =>
      refine ⟨o, rfl, ?_⟩
      simp only [respOk] at h
      unfold getJD
      cases hl : lookupJ o "text"
      · rfl
      · rw [hl] at h; exact h
  | jstr s => exact Bool.noConfusion h
  | jnum n => exact Bool.noConfusion h
  | jbool b => exact Bool.noConfusion h
  | jnull => exact Bool.noConfusion h
  | jarr l => exact Bool.noConfusion h

theorem getJD_respOk {d : List (String × JVal)}
    (hk : ∀ v, lookupJ d "response" = some v → respOk v = true) :
    respOk (getJD d "response" (.jobj [])) = true := by
  unfold getJD
  cases hl : lookupJ d "response"
  · rfl
  · exact hk _ hl

theorem getJD_isObjB {d : List (String × JVal)} {k : String}
    (hk : ∀ v, lookupJ d k = some v → isObjB v = true) (o : List (String × JVal)) :
    isObjB (getJD d k (.jobj o)) = true := by
  unfold getJD
  cases hl : lookupJ d k
  · rfl
  · exact hk _ hl

theorem pyGet_obj (o : List (String × JVal)) (k : String) (dflt : JVal) :
    pyGet (.jobj o) k dflt = .ok (getJD o k dflt) := rfl

theorem ite_isOk {α : Type} {c : Prop} [Decidable c] {x y : Except PyErr α}
    (hx : x.isOk = true) (hy : y.isOk = true) : (if c then x else y).isOk = true := by
  split
  · exact hx
  · exact hy

/-- handle_hook completes without raising on any payload whose optional
fields are well-typed. -/
theorem handleHook_wellTyped_isOk (a : HAgent) (d : List (String × JVal))
    (h : WellTypedPayload d) : (handleHook a d).isOk = true := by
  obtain ⟨hp, hr, ht, hpr, hd⟩ := h
  simp only [handleHook]
  apply ite_isOk
  · rfl
  apply ite_isOk
  · -- BeforeAgent
    apply ite_isOk
    · obtain ⟨t, het⟩ := pyTrunc_of_isStrB (getJD_isStrB hp "") 50
      rw [het]; rfl
    · rfl
  apply ite_isOk
  · rfl
  apply ite_isOk
  · -- AfterModel
    obtain ⟨o, ho, hos⟩ := respOk_elim (getJD_respOk hr)
    rw [ho, pyGet_obj]
    have htext : isStrB (if truthy (getJD o "text" (.jstr "")) = true
        then getJD o "text" (.jstr "") else getJD d "text" (.jstr "")) = true := by
      split
      · exact hos
      · exact getJD_isStrB ht ""
    obtain ⟨t, het⟩ := pyTrunc_of_isStrB htext 50
    show (bind (Except.ok (getJD o "text" (.jstr ""))) _ ).isOk = true
    simp only [bind, Except.bind]
    apply ite_isOk
    · rw [het]; rfl
    · rfl
  apply ite_isOk
  · apply ite_isOk <;> rfl
  apply ite_isOk
  · apply ite_isOk <;> rfl
  apply ite_isOk
  · -- AfterAgent
    apply ite_isOk
    · obtain ⟨s, hs⟩ := isStrB_elim (getJD_isStrB hpr "")
      rw [hs]
      cases hgl : (stripLines s).getLast? <;> simp only [hgl] <;> rfl
    · rfl
  apply ite_isOk
  · -- Notification
    apply ite_isOk
    · obtain ⟨o, ho⟩ := isObjB_elim (getJD_isObjB hd [])
      rw [ho, pyGet_obj]; rfl
    · apply ite_isOk <;> rfl
  rfl

/-! ## Claims C5, C6 and C10 -/

/-- C5: starting from status Idle, the event sequence BeforeAgent,
BeforeModel, AfterModel, AfterAgent drives the agent's store status through
busy, busy, busy, idle; moreover an AfterTool event processed while busy
leaves the status busy. -/
theorem c5_status_transition_sequence :
    statusTrace (HAgent.init, "idle")
        [[("hook_event_name", JVal.jstr "BeforeAgent")],
         [("hook_event_name", JVal.jstr "BeforeModel")],
         [("hook_event_name", JVal.jstr "AfterModel")],
         [("hook_event_name", JVal.jstr "AfterAgent")]]
      = ["busy", "busy", "busy", "idle"]
    ∧ (procStatus (HAgent.init, "busy")
        [("hook_event_name", JVal.jstr "AfterTool")]).2 = "busy" := by
  constructor
  · rfl
  · rfl

/-- C6: a Notification with subtype ToolPermission does set the status to
blocked, but a subsequent Notification with another subtype leaves the
status blocked instead of setting it to busy: the branch that would return
BUSY tests the GeminiAgent.status dataclass field, which the hook pipeline
never writes back (Sidebar._on_hook_message only updates the state store's
copy), so that field is still IDLE when the second notification arrives. -/
theorem c6_blocked_notification_divergence :
    statusTrace (HAgent.init, "idle")
        [[("hook_event_name", JVal.jstr "Notification"),
          ("notification_type", JVal.jstr "ToolPermission")],
         [("hook_event_name", JVal.jstr "Notification"),
          ("notification_type", JVal.jstr "Info")]]
      = ["blocked", "blocked"]
    ∧ (handleHook ⟨.blocked, none⟩
        [("hook_event_name", JVal.jstr "Notification"),
         ("notification_type", JVal.jstr "Info")]
       = .ok (⟨.blocked, none⟩, some .busy, none)) := by
  constructor
  · rfl
  · rfl

/-- C10 counterexample: an AfterModel payload whose response field is a
string makes handle_hook raise AttributeError (the string has no .get
attribute), refuting the claim that handle_hook returns a pair for every
dict payload. -/
theorem c10_counterexample :
    handleHook HAgent.init
        [("hook_event_name", JVal.jstr "AfterModel"), ("response", JVal.jstr "hi")]
      = .error .attributeError := by
  rfl

/-- C10 (amended): handle_hook returns a (status, message) pair without
raising for every dict payload whose optional fields are well-typed
(prompt, text and prompt_response strings when present; response an object
with a string text sub-field when present; details an object when present).
A payload violating this (e.g. a string response field) raises, and the
exception is swallowed by the socket server's generic handler. -/
theorem c10_no_raise_well_typed (a : HAgent) (d : List (String × JVal))
    (h : WellTypedPayload d) : (handleHook a d).isOk = true :=
  handleHook_wellTyped_isOk a d h

/-- Witness for c10_no_raise_well_typed at a concrete well-typed payload. -/
theorem c10_no_raise_well_typed_witness :
    WellTypedPayload
        [("hook_event_name", JVal.jstr "AfterModel"),
         ("response", JVal.jobj [("text", JVal.jstr "hello")])]
    ∧ (handleHook HAgent.init
        [("hook_event_name", JVal.jstr "AfterModel"),
         ("response", JVal.jobj [("text", JVal.jstr "hello")])]).isOk = true := by
  have hwt : WellTypedPayload
      [("hook_event_name", JVal.jstr "AfterModel"),
       ("response", JVal.jobj [("text", JVal.jstr "hello")])] := by
    refine ⟨fun v hv => ?_, fun v hv => ?_, fun v hv => ?_, fun v hv => ?_, fun v hv => ?_⟩
    all_goals simp only [lookupJ, if_neg, if_pos, reduceIte] at hv
    all_goals first
      | exact Option.noConfusion hv
      | (injection hv with hv; subst hv; rfl)
  exact ⟨hwt, c10_no_raise_well_typed HAgent.init _ hwt⟩

theorem rfindSpace_lt_length (l : PStr) : rfindSpace l < (l.length : Int) := by
  unfold rfindSpace
  cases hfi : l.reverse.findIdx? (fun c => c = ' ') with
  | none =>
      simp only [hfi]
      have : (0 : Int) ≤ (l.length : Int) := Int.ofNat_nonneg _
      omega
  | some i =>
      simp only [hfi]
      have hi : (0 : Int) ≤ (i : Int) := Int.ofNat_nonneg _
      omega

theorem wrapLoop_length_le (width fuel : Nat) (r : PStr) (b : Bool) :
    (wrapLoop width fuel r b).length ≤ fuel := by
  induction fuel generalizing r b with
  | zero => simp [wrapLoop]
  | succ f ih =>
      simp only [wrapLoop]
      split
      · simp
      · split
        · simp
        · split
          · simpa using Nat.succ_le_succ (ih _ _)
          · simpa using Nat.succ_le_succ (ih _ _)

theorem wrapLoop_width_le (width fuel : Nat) (r : PStr) (b : Bool) :
    ∀ m ∈ wrapLoop width fuel r b, m.2.length ≤ width := by
  induction fuel generalizing r b with
  | zero => simp [wrapLoop]
  | succ f ih =>
      simp only [wrapLoop]
      split
      · simp
      · split
        next hlen =>
          intro m hm
          simp only [List.mem_singleton] at hm
          subst hm
          exact hlen
        · split
          next hsp =>
            intro m hm
            rcases List.mem_cons.mp hm with hm | hm
            · subst hm
              simp only [List.length_take]
              have hlt : rfindSpace (r.take width) < ((r.take width).length : Int) :=
                rfindSpace_lt_length _
              have htk : ((r.take width).length : Int) ≤ (width : Int) := by
                simp [List.length_take]
              omega
            · exact ih _ _ m hm
          next hsp =>
            intro m hm
            rcases List.mem_cons.mp hm with hm | hm
            · subst hm
              simp [List.length_take]
            · exact ih _ _ m hm

/-- C7: when an AfterAgent event carries a pinned prompt and a non-empty
final response, the collapsed preview buffer starts with the pinned
prompt, never exceeds num_lines entries (so the response occupies at most
num_lines - 1 further lines), and every wrapped response line is at most
the width budget sidebar_width - 4 characters. -/
theorem c7_after_agent_collapse (cfgWidth : Nat) (st : AgentPreview)
    (pin resp : String × PStr)
    (hpin : st.pinned_message = some pin)
    (hnl : 1 ≤ st.num_lines)
    (hresp : resp.2 ≠ []) :
    (afterAgentCollapse cfgWidth st (some resp)).head? = some pin ∧
    (afterAgentCollapse cfgWidth st (some resp)).length ≤ st.num_lines ∧
    ∀ m ∈ (afterAgentCollapse cfgWidth st (some resp)).tail,
      m.2.length ≤ cfgWidth - 4 := by
  unfold afterAgentCollapse
  rw [hpin]
  simp only [List.length_singleton]
  by_cases hlines : st.num_lines - 1 > 0
  · rw [if_pos hlines]
    by_cases hshort : resp.2.length ≤ cfgWidth - 4
    · rw [if_pos hshort]
      refine ⟨rfl, ?_, ?_⟩
      · simpa using by omega
      · intro m hm
        simp only [List.singleton_append, List.tail_cons, List.mem_singleton] at hm
        subst hm
        exact hshort
    · rw [if_neg hshort]
      refine ⟨rfl, ?_, ?_⟩
      · have hw := wrapLoop_length_le (cfgWidth - 4) (st.num_lines - 1) resp.2 true
        simp only [List.singleton_append, List.length_cons]
        omega
      · intro m hm
        simp only [List.singleton_append, List.tail_cons] at hm
        exact wrapLoop_width_le _ _ _ _ m hm
  · rw [if_neg hlines]
    exact ⟨rfl, by simpa using hnl, by simp⟩

/-- Witness for c7_after_agent_collapse: a 2-line agent with a pinned
prompt and a response longer than the 21-character budget of the default
25-column sidebar. -/
theorem c7_after_agent_collapse_witness :
    (⟨[], some ("user", "hi".toList), 2⟩ : AgentPreview).pinned_message
        = some ("user", "hi".toList) ∧
    (1 : Nat) ≤ (⟨[], some ("user", "hi".toList), 2⟩ : AgentPreview).num_lines ∧
    ("gemini", "the answer is forty two, obviously".toList).2 ≠ ([] : PStr) ∧
    ((afterAgentCollapse 25 ⟨[], some ("user", "hi".toList), 2⟩
        (some ("gemini", "the answer is forty two, obviously".toList))).head?
       = some ("user", "hi".toList) ∧
     (afterAgentCollapse 25 ⟨[], some ("user", "hi".toList), 2⟩
        (some ("gemini", "the answer is forty two, obviously".toList))).length ≤ 2 ∧
     ∀ m ∈ (afterAgentCollapse 25 ⟨[], some ("user", "hi".toList), 2⟩
        (some ("gemini", "the answer is forty two, obviously".toList))).tail,
       m.2.length ≤ 25 - 4) :=
  ⟨rfl, by decide, by decide,
   c7_after_agent_collapse 25 ⟨[], some ("user", "hi".toList), 2⟩
     ("user", "hi".toList) ("gemini", "the answer is forty two, obviously".toList)
     rfl (by decide) (by decide)⟩

theorem markActive_length (index i : Nat) (l : List AgentUI) :
    (markActive index i l).length = l.length := by
  induction l generalizing i with
  | nil => rfl
  | cons a rest ih => simp [markActive, ih]

theorem markActive_name (index i : Nat) (l : List AgentUI) (n : Nat) :
    ((markActive index i l).get? n).map (fun a => a.name)
      = (l.get? n).map (fun a => a.name) := by
  induction l generalizing i n with
  | nil => rfl
  | cons a rest ih =>
      cases n with
      | zero =>
          simp only [markActive, List.get?]
          split
          · rfl
          · split <;> rfl
      | succ m => simpa [markActive, List.get?] using ih (i + 1) m

theorem markActive_idem (index i : Nat) (l : List AgentUI) :
    markActive index i (markActive index i l) = markActive index i l := by
  induction l generalizing i with
  | nil => rfl
  | cons a rest ih =>
      simp only [markActive]
      split
      next hi =>
        simp only [markActive, List.cons.injEq, if_pos hi]
        exact ⟨trivial, ih (i + 1)⟩
      next hi =>
        split
        next ha =>
          simp only [markActive, List.cons.injEq, if_neg hi]
          exact ⟨by simp, ih (i + 1)⟩
        next ha =>
          simp only [markActive, List.cons.injEq, if_neg hi, if_neg ha]
          exact ⟨trivial, ih (i + 1)⟩

/-- C3 counterexample: with a one-agent store whose active index is
already 0, calling set_active_agent(0) twice performs two notify rounds
(and two snapshots), not one -- the second call is not a no-op, refuting
the guaranteed-idempotence claim.  (The sidebar even relies on this:
_update_active_highlight re-calls set_active_agent with the current index
precisely to force a notification.) -/
theorem c3_counterexample :
    (setActiveAgent (⟨⟨[⟨"p1", "A", "idle"⟩], 0, [], "A"⟩, 0⟩ : StoreM) 0).state.active_index = 0 ∧
    (setActiveAgent (setActiveAgent (⟨⟨[⟨"p1", "A", "idle"⟩], 0, [], "A"⟩, 0⟩ : StoreM) 0)
        0).notifyCount = 2 := by
  constructor
  · rfl
  · rfl

/-- C3 (amended): calling set_active_agent twice with the same valid index
notifies subscribers twice (each call snapshots, mutates and notifies);
the second call is idempotent only on the observable state fields, which
it rewrites to the same values. -/
theorem c3_repeat_set_active (st : StoreM) (i : Nat)
    (h : i < st.state.agents.length) :
    (setActiveAgent (setActiveAgent st i) i).state = (setActiveAgent st i).state ∧
    (setActiveAgent (setActiveAgent st i) i).notifyCount = st.notifyCount + 2 := by
  have hs1 : setActiveAgent st i =
      ⟨⟨markActive i 0 st.state.agents, i, st.state.notifications,
        (st.state.agents.get ⟨i, h⟩).name⟩, st.notifyCount + 1⟩ := by
    unfold setActiveAgent
    rw [dif_pos h]
  have h2 : i < (markActive i 0 st.state.agents).length := by
    rw [markActive_length]; exact h
  have hs2 : setActiveAgent
      (⟨⟨markActive i 0 st.state.agents, i, st.state.notifications,
        (st.state.agents.get ⟨i, h⟩).name⟩, st.notifyCount + 1⟩ : StoreM) i =
      ⟨⟨markActive i 0 (markActive i 0 st.state.agents), i, st.state.notifications,
        ((markActive i 0 st.state.agents).get ⟨i, h2⟩).name⟩, st.notifyCount + 1 + 1⟩ := by
    unfold setActiveAgent
    rw [dif_pos h2]
  have hname : ((markActive i 0 st.state.agents).get ⟨i, h2⟩).name
      = (st.state.agents.get ⟨i, h⟩).name := by
    have hmn := markActive_name i 0 st.state.agents i
    rw [List.get?_eq_get h2, List.get?_eq_get h] at hmn
    simpa using hmn
  rw [hs1, hs2]
  constructor
  · simp only [UIStateM.mk.injEq]
    exact ⟨markActive_idem i 0 st.state.agents, trivial, trivial, hname⟩
  · rfl

/-- Witness for c3_repeat_set_active on a concrete two-agent store. -/
theorem c3_repeat_set_active_witness :
    (1 : Nat) < (⟨⟨[⟨"p1", "A", "idle"⟩, ⟨"p2", "B", "idle"⟩], 0, [], "A"⟩, 0⟩ :
        StoreM).state.agents.length ∧
    ((setActiveAgent (setActiveAgent
          (⟨⟨[⟨"p1", "A", "idle"⟩, ⟨"p2", "B", "idle"⟩], 0, [], "A"⟩, 0⟩ : StoreM) 1) 1).state
        = (setActiveAgent
          (⟨⟨[⟨"p1", "A", "idle"⟩, ⟨"p2", "B", "idle"⟩], 0, [], "A"⟩, 0⟩ : StoreM) 1).state ∧
     (setActiveAgent (setActiveAgent
          (⟨⟨[⟨"p1", "A", "idle"⟩, ⟨"p2", "B", "idle"⟩], 0, [], "A"⟩, 0⟩ : StoreM) 1) 1).notifyCount
        = 2) :=
  ⟨by decide,
   c3_repeat_set_active (⟨⟨[⟨"p1", "A", "idle"⟩, ⟨"p2", "B", "idle"⟩], 0, [], "A"⟩, 0⟩ : StoreM) 1
     (by decide)⟩

theorem minByMtime_aux (l : List SessionFile) (acc : Option SessionFile) (f : SessionFile) :
    l.foldl
        (fun best g =>
          match best with
          | none => some g
          | some b => if g.mtime < b.mtime then some g else some b)
        acc = some f →
    f ∈ l ∨ acc = some f := by
  induction l generalizing acc with
  | nil => intro h; exact Or.inr h
  | cons g rest ih =>
      intro h
      rcases ih _ h with hm | hacc
      · exact Or.inl (List.mem_cons_of_mem _ hm)
      · cases acc with
        | none =>
            simp only at hacc
            injection hacc with hacc
            exact Or.inl (hacc ▸ List.mem_cons_self _ _)
        | some b =>
            simp only at hacc
            split at hacc
            · injection hacc with hacc
              exact Or.inl (hacc ▸ List.mem_cons_self _ _)
            · exact Or.inr hacc

theorem minByMtime_mem {l : List SessionFile} {f : SessionFile}
    (h : minByMtime l = some f) : f ∈ l := by
  rcases minByMtime_aux l none f h with hm | hacc
  · exact hm
  · exact Option.noConfusion hacc

theorem pidScan_unclaimed (claimed : List String) (procTs : Int)
    (l : List SessionFile) (acc : Option (String × Int))
    (hacc : ∀ n d, acc = some (n, d) → claimed.contains n = false) :
    ∀ n d, l.foldl (pidScanStep claimed procTs) acc = some (n, d) →
      claimed.contains n = false := by
  induction l generalizing acc with
  | nil => exact hacc
  | cons f rest ih =>
      refine ih (pidScanStep claimed procTs acc f) ?_
      intro n d h
      unfold pidScanStep at h
      split at h
      · exact hacc n d h
      split at h
      next hcl => exact hacc n d h
      next hcl =>
        split at h
        · exact hacc n d h
        · split at h
          · injection h with h
            have hn : f.name = n := congrArg Prod.fst h
            rw [← hn]
            exact (Bool.not_eq_true _) ▸ hcl
          · exact hacc n d h

/-- C2 counterexample: both hook-mapping lines name the same external
session, and find_session_by_hook ignores the claimed-session set, so the
second agent is assigned the very path the first agent has already
claimed: after one poll both agents carry the same session_path, refuting
global uniqueness of claims. -/
theorem c2_counterexample :
    ((matchSessions
        ⟨some ["u1=sessabcd1234", "u2=sessabcd1234"],
         some [⟨"session-2026-sessabcd.json", 0, none⟩], none, 0⟩
        false
        [⟨"u1", 0, none, none⟩, ⟨"u2", 0, none, none⟩] []).1.map
      fun a => a.session_path)
      = [some "session-2026-sessabcd.json", some "session-2026-sessabcd.json"] ∧
    (matchSessions
        ⟨some ["u1=sessabcd1234", "u2=sessabcd1234"],
         some [⟨"session-2026-sessabcd.json", 0, none⟩], none, 0⟩
        false
        [⟨"u1", 0, none, none⟩, ⟨"u2", 0, none, none⟩] []).2
      = ["session-2026-sessabcd.json"] := by
  constructor
  · rfl
  · rfl

/-- C2 (amended): the process-start-time and creation-time strategies
never offer a path that is already in the claimed set; the hook-reported
strategy deliberately ignores the claimed set (source comment: return
even if claimed since this is hook-based), so under it a path already
claimed by one agent can be assigned to a second agent whose hook mapping
names the same session. -/
theorem c2_unclaimed_strategies (env : FSEnv) (claimed : List String)
    (a : CorrAgent) (p : String)
    (h : findNewSession env claimed a = some p ∨
         findSessionByPid env claimed a = some p) :
    claimed.contains p = false := by
  obtain ⟨ml, sd, ps, nw⟩ := env
  obtain ⟨auuid, acreated, apid, asess⟩ := a
  rcases h with h | h
  · unfold findNewSession at h
    cases sd with
    | none => exact Option.noConfusion h
    | some files =>
        simp only at h
        split at h
        · exact Option.noConfusion h
        · rcases hmin : minByMtime (files.filter (fun f =>
              matchesSessionGlob f.name &&
                f.mtime ≥ (⟨auuid, acreated, apid, asess⟩ : CorrAgent).created_at &&
                ! claimed.contains f.name)) with _ | f
          · rw [hmin] at h; exact Option.noConfusion h
          · rw [hmin] at h
            injection h with h
            have hf := minByMtime_mem hmin
            have hpred := List.of_mem_filter hf
            simp only [Bool.and_eq_true, Bool.not_eq_true'] at hpred
            exact h ▸ hpred.2
  · unfold findSessionByPid at h
    cases apid with
    | none => exact Option.noConfusion h
    | some pid =>
        simp only at h
        cases sd with
        | none => exact Option.noConfusion h
        | some files =>
            simp only at h
            cases ps with
            | none => exact Option.noConfusion h
            | some procTs =>
                simp only [Option.map_eq_some'] at h
                obtain ⟨⟨n, d⟩, hfold, hn⟩ := h
                have := pidScan_unclaimed claimed procTs files none
                  (fun _ _ hx => Option.noConfusion hx) n d hfold
                exact hn ▸ this

/-- Witness for c2_unclaimed_strategies: a concrete environment in which
the creation-time strategy succeeds, and its result is indeed not in the
claimed set. -/
theorem c2_unclaimed_strategies_witness :
    (findNewSession ⟨none, some [⟨"session-a.json", 600, none⟩], none, 600⟩
        ["other"] ⟨"w", 0, none, none⟩ = some "session-a.json" ∨
     findSessionByPid ⟨none, some [⟨"session-a.json", 600, none⟩], none, 600⟩
        ["other"] ⟨"w", 0, none, none⟩ = some "session-a.json") ∧
    (["other"] : List String).contains "session-a.json" = false :=
  ⟨Or.inl rfl,
   c2_unclaimed_strategies ⟨none, some [⟨"session-a.json", 600, none⟩], none, 600⟩
     ["other"] ⟨"w", 0, none, none⟩ "session-a.json" (Or.inl rfl)⟩

/-- C4 counterexample: with no hook mapping on disk but a process-start
correlation that would succeed (and a creation-time heuristic that would
also succeed), the poll leaves the agent unclaimed: _match_sessions in
the source consults the hook strategy only (its comment: hook-based
matching ONLY), never strategies 2 and 3, refuting the claimed
three-strategy priority chain. -/
theorem c4_counterexample :
    tryStrategiesSpec ⟨none, some [⟨"session-x.json", 1000, some 150⟩], some 100, 10000⟩
        [] ⟨"u1", 0, some 7, none⟩ = some "session-x.json" ∧
    ((matchSessions ⟨none, some [⟨"session-x.json", 1000, some 150⟩], some 100, 10000⟩
        false [⟨"u1", 0, some 7, none⟩] []).1.map fun a => a.session_path) = [none] := by
  constructor
  · rfl
  · rfl

/-- C4 (amended): every correlation poll tick applies exactly the
hook-reported mapping strategy to each agent without a session -- an
unclaimed agent's new session_path is find_session_by_hook's result and
nothing else; the process-start-time and creation-time strategies are
implemented in models.py but never invoked by the poll. -/
theorem c4_hook_only (env : FSEnv) (agents : List CorrAgent) (claimed : List String) :
    (matchSessions env false agents claimed).1
      = agents.map (fun a =>
          if a.session_path.isSome then a
          else
            match findSessionByHook env a with
            | some f => { a with session_path := some f }
            | none => a) := by
  unfold matchSessions
  simp only [if_neg (by simp : ¬ (false = true))]
  induction agents generalizing claimed with
  | nil => rfl
  | cons a rest ih =>
      simp only [matchSessionsGo, List.map_cons]
      split
      · simp only [List.cons.injEq]
        exact ⟨by trivial, ih claimed⟩
      · split
        next f hf =>
          simp only [hf, List.cons.injEq]
          exact ⟨by trivial, ih _⟩
        next hf =>
          simp only [hf, List.cons.injEq]
          exact ⟨by trivial, ih claimed⟩

theorem mem_of_get?_some {α : Type} {l : List α} {n : Nat} {a : α}
    (h : l.get? n = some a) : a ∈ l := by
  obtain ⟨hn, hget⟩ := List.get?_eq_some.mp h
  exact hget ▸ List.get_mem l n hn

theorem paneId_get?_inj {l : List APane} {i j : Nat} {x y : APane}
    (hnd : (l.map (fun a => a.paneId)).Nodup)
    (hx : l.get? i = some x) (hy : l.get? j = some y)
    (hxy : x.paneId = y.paneId) : i = j := by
  have hi : i < l.length := (List.get?_eq_some.mp hx).1
  have hmx : (l.map (fun a => a.paneId)).get? i = some x.paneId := by
    rw [List.get?_map, hx]; rfl
  have hmy : (l.map (fun a => a.paneId)).get? j = some y.paneId := by
    rw [List.get?_map, hy]; rfl
  refine List.get?_inj (by rw [List.length_map]; exact hi) hnd ?_
  rw [hmx, hmy, hxy]

theorem filter_window_single {l : List APane} {k : Nat}
    (h : ∀ i a, l.get? i = some a → a.window = 0 → i = k) :
    (l.filter (fun a => a.window == 0)).length ≤ 1 := by
  induction l generalizing k with
  | nil => simp
  | cons a t ih =>
      by_cases hw : (a.window == 0) = true
      · have hk : (0 : Nat) = k := h 0 a rfl (by simpa using hw)
        have htail : t.filter (fun b => b.window == 0) = [] := by
          rw [List.filter_eq_nil]
          intro b hb hbw
          obtain ⟨j, hj⟩ := List.get?_of_mem hb
          have := h (j + 1) b (by simpa using hj) (by simpa using hbw)
          omega
        simp [List.filter_cons, hw, htail]
      · rw [List.filter_cons, if_neg hw]
        exact ih (k := k - 1) (fun i b hb hbw => by
          have := h (i + 1) b (by simpa using hb) hbw
          omega)

theorem inv_visCount {s : OState} (hInv : Inv s) : visCount s ≤ 1 :=
  filter_window_single hInv.2.2.2.2

theorem invInit : Inv initState := by
  refine ⟨rfl, by decide, ?_, by decide, ?_⟩
  · intro a ha
    rcases List.mem_singleton.mp ha with rfl
    decide
  · intro i a hget hw
    match i, hget with
    | 0, h =>
        rfl
    | n + 1, h =>
        exact Option.noConfusion h

theorem invCreate (env : List String) (s : OState) (name cmd : String)
    (hInv : Inv s) : Inv (createAgent env s name cmd).1 := by
  obtain ⟨h1, h2, h3, h4, h5⟩ := hInv
  unfold createAgent
  split
  · exact ⟨h1, h2, h3, h4, h5⟩
  · cases hfv : findVisible s with
    | none => exact ⟨h1, h2, h3, h4, h5⟩
    | some vis =>
        dsimp only
        have hvis_mem : vis ∈ s.agents := List.mem_of_find?_eq_some hfv
        have hvis_w : vis.window = 0 := by
          have := List.find?_some hfv
          simpa using this
        obtain ⟨iv, hiv⟩ := List.get?_of_mem hvis_mem
        have hivact : iv = s.activeIndex := h5 iv vis hiv hvis_w
        refine ⟨h1, (by omega : 1 ≤ s.nextWindow + 1), ?_, ?_, ?_⟩
        · -- pane id bound
          intro a ha
          rcases List.mem_append.mp ha with ha | ha
          · obtain ⟨b, hb, rfl⟩ := List.mem_map.mp ha
            have hb3 := h3 b hb
            have hlt : b.paneId < s.nextPane + 1 := by omega
            split <;> exact hlt
          · rcases List.mem_singleton.mp ha with rfl
            show s.nextPane < s.nextPane + 1
            omega
        · -- pane ids distinct
          have hids : (s.agents.map (fun a =>
              if a.paneId == vis.paneId then { a with window := s.nextWindow } else a)).map
                (fun a => a.paneId) = s.agents.map (fun a => a.paneId) := by
            rw [List.map_map]
            refine List.map_congr_left (fun a _ => ?_)
            show (if a.paneId == vis.paneId then
                ({ a with window := s.nextWindow } : APane) else a).paneId = a.paneId
            split <;> rfl
          rw [List.map_append, hids, List.nodup_append]
          refine ⟨h4, by simp, ?_⟩
          intro x hx hx'
          simp only [List.map_cons, List.map_nil, List.mem_singleton] at hx'
          obtain ⟨b, hb, rfl⟩ := List.mem_map.mp hx
          have := h3 b hb
          omega
        · -- single-visible clause
          intro j a hget hw
          dsimp only at hget ⊢
          by_cases hj : j < s.agents.length
          · rw [List.get?_append (by rw [List.length_map]; exact hj),
              List.get?_map] at hget
            cases hb : s.agents.get? j with
            | none => rw [hb] at hget; exact Option.noConfusion hget
            | some b =>
                rw [hb] at hget
                injection hget with hget
                dsimp only at hget
                by_cases hpb : (b.paneId == vis.paneId) = true
                · rw [if_pos hpb] at hget
                  rw [← hget] at hw
                  exact absurd hw (by simp; omega)
                · rw [if_neg hpb] at hget
                  rw [← hget] at hw
                  have hj5 := h5 j b hb hw
                  have hjiv : j = iv := by omega
                  subst hjiv
                  rw [hiv] at hb
                  injection hb with hb
                  exact absurd (by rw [hb]; simp) hpb
          · have hjl : (s.agents.map (fun a =>
                if a.paneId == vis.paneId then { a with window := s.nextWindow }
                else a)).length ≤ j := by
              rw [List.length_map]; omega
            rw [List.get?_append_right hjl, List.length_map] at hget
            rcases hd : j - s.agents.length with _ | m
            · rw [hd] at hget
              have hlen : j = s.agents.length := by omega
              subst hlen
              simp [List.length_append, List.length_map]
            · rw [hd] at hget
              simp at hget

theorem invJoined (s : OState) (i : Nat) (target : APane)
    (h1 : s.sidebarWindow = 0) (h2 : 1 ≤ s.nextWindow)
    (h3 : ∀ a ∈ s.agents, a.paneId < s.nextPane)
    (h4 : (s.agents.map (fun a => a.paneId)).Nodup)
    (h5 : ∀ j a, s.agents.get? j = some a → a.window = 0 → j = s.activeIndex)
    (hti : s.agents.get? i = some target)
    (hcur : ∀ b, s.agents.get? s.activeIndex = some b → ¬ b.window = 0) :
    Inv { s with
      agents := s.agents.map (fun a =>
        if a.paneId == target.paneId then { a with window := s.sidebarWindow } else a),
      activeIndex := i,
      notifications := s.notifications ++ ["Switched to " ++ target.name] } := by
  refine ⟨h1, h2, ?_, ?_, ?_⟩
  · intro a ha
    obtain ⟨b, hb, rfl⟩ := List.mem_map.mp ha
    have hb3 := h3 b hb
    have hlt : b.paneId < s.nextPane := hb3
    split <;> exact hlt
  · have hids : (s.agents.map (fun a =>
        if a.paneId == target.paneId then { a with window := s.sidebarWindow } else a)).map
          (fun a => a.paneId) = s.agents.map (fun a => a.paneId) := by
      rw [List.map_map]
      refine List.map_congr_left (fun a _ => ?_)
      show (if a.paneId == target.paneId then
          ({ a with window := s.sidebarWindow } : APane) else a).paneId = a.paneId
      split <;> rfl
    rw [hids]
    exact h4
  · intro j a hget hw
    dsimp only at hget ⊢
    rw [List.get?_map] at hget
    cases hb : s.agents.get? j with
    | none => rw [hb] at hget; exact Option.noConfusion hget
    | some b =>
        rw [hb] at hget
        injection hget with hget
        dsimp only at hget
        by_cases hpb : (b.paneId == target.paneId) = true
        · exact paneId_get?_inj h4 hb hti (by simpa using hpb)
        · rw [if_neg hpb] at hget
          rw [← hget] at hw
          have hj5 := h5 j b hb hw
          exact absurd hw (hcur b (hj5 ▸ hb))

theorem invBreakJoin (s : OState) (i : Nat) (target current : APane)
    (h1 : s.sidebarWindow = 0) (h2 : 1 ≤ s.nextWindow)
    (h3 : ∀ a ∈ s.agents, a.paneId < s.nextPane)
    (h4 : (s.agents.map (fun a => a.paneId)).Nodup)
    (h5 : ∀ j a, s.agents.get? j = some a → a.window = 0 → j = s.activeIndex)
    (hti : s.agents.get? i = some target)
    (hc : s.agents.get? s.activeIndex = some current) :
    Inv { s with
      agents := s.agents.map (fun a =>
        if a.paneId == current.paneId then { a with window := s.nextWindow }
        else if a.paneId == target.paneId then { a with window := s.sidebarWindow }
        else a),
      nextWindow := s.nextWindow + 1,
      activeIndex := i,
      notifications := s.notifications ++ ["Switched to " ++ target.name] } := by
  refine ⟨h1, (by omega : 1 ≤ s.nextWindow + 1), ?_, ?_, ?_⟩
  · intro a ha
    obtain ⟨b, hb, rfl⟩ := List.mem_map.mp ha
    have hlt : b.paneId < s.nextPane := h3 b hb
    split
    · exact hlt
    · split <;> exact hlt
  · have hids : (s.agents.map (fun a =>
        if a.paneId == current.paneId then { a with window := s.nextWindow }
        else if a.paneId == target.paneId then { a with window := s.sidebarWindow }
        else a)).map (fun a => a.paneId) = s.agents.map (fun a => a.paneId) := by
      rw [List.map_map]
      refine List.map_congr_left (fun a _ => ?_)
      show (if a.paneId == current.paneId then ({ a with window := s.nextWindow } : APane)
          else if a.paneId == target.paneId then { a with window := s.sidebarWindow }
          else a).paneId = a.paneId
      split
      · rfl
      · split <;> rfl
    rw [hids]
    exact h4
  · intro j a hget hw
    dsimp only at hget ⊢
    rw [List.get?_map] at hget
    cases hb : s.agents.get? j with
    | none => rw [hb] at hget; exact Option.noConfusion hget
    | some b =>
        rw [hb] at hget
        injection hget with hget
        dsimp only at hget
        by_cases hpc : (b.paneId == current.paneId) = true
        · rw [if_pos hpc] at hget
          rw [← hget] at hw
          exact absurd hw (by simp; omega)
        · rw [if_neg hpc] at hget
          by_cases hpt : (b.paneId == target.paneId) = true
          · exact paneId_get?_inj h4 hb hti (by simpa using hpt)
          · rw [if_neg hpt] at hget
            rw [← hget] at hw
            have hj5 := h5 j b hb hw
            rw [hj5, hc] at hb
            injection hb with hb
            exact absurd (by rw [hb]; simp) hpc

theorem invSwitch (s : OState) (i : Nat) (hInv : Inv s) : Inv (switchTo s i) := by
  obtain ⟨h1, h2, h3, h4, h5⟩ := hInv
  unfold switchTo
  cases hti : s.agents.get? i with
  | none => exact ⟨h1, h2, h3, h4, h5⟩
  | some target =>
      dsimp only
      by_cases hia : i = s.activeIndex
      · rw [if_pos hia]
        exact ⟨h1, h2, h3, h4, h5⟩
      · rw [if_neg hia]
        by_cases htw : target.window = 0
        · exact absurd (h5 i target hti htw) hia
        · rw [if_neg htw]
          cases hc : s.agents.get? s.activeIndex with
          | none =>
              exact invJoined s i target h1 h2 h3 h4 h5 hti
                (fun b hb => absurd (hc ▸ hb) (by simp))
          | some current =>
              dsimp only
              by_cases hcw : current.window = 0
              · rw [if_pos hcw]
                exact invBreakJoin s i target current h1 h2 h3 h4 h5 hti hc
              · rw [if_neg hcw]
                exact invJoined s i target h1 h2 h3 h4 h5 hti
                  (fun b hb => by
                    rw [hc] at hb
                    injection hb with hb
                    rw [← hb]
                    exact hcw)

theorem invSetActiveO (s : OState) (k : Nat)
    (h1 : s.sidebarWindow = 0) (h2 : 1 ≤ s.nextWindow)
    (h3 : ∀ a ∈ s.agents, a.paneId < s.nextPane)
    (h4 : (s.agents.map (fun a => a.paneId)).Nodup)
    (h5 : ∀ j a, s.agents.get? j = some a → ¬ a.window = 0) :
    Inv (setActiveO s k) := by
  unfold setActiveO
  split
  · exact ⟨h1, h2, h3, h4, fun j a hget hw => absurd hw (h5 j a hget)⟩
  · exact ⟨h1, h2, h3, h4, fun j a hget hw => absurd hw (h5 j a hget)⟩

theorem invCloseActive (s : OState) (hInv : Inv s) :
    Inv (closeAgent s s.activeIndex) := by
  obtain ⟨h1, h2, h3, h4, h5⟩ := hInv
  unfold closeAgent
  cases hag : s.agents.get? s.activeIndex with
  | none => exact ⟨h1, h2, h3, h4, h5⟩
  | some ag =>
      dsimp only
      by_cases hlen : s.agents.length ≤ 1
      · rw [if_pos hlen]
        exact ⟨h1, h2, h3, h4, h5⟩
      · rw [if_neg hlen]
        apply invSetActiveO
        · exact h1
        · exact h2
        · intro a ha
          exact h3 a (List.mem_filter.mp ha).1
        · exact List.Nodup.sublist (List.Sublist.map _ (List.filter_sublist _)) h4
        · intro j a hget hw
          have ha := mem_of_get?_some hget
          obtain ⟨hmem, hpred⟩ := List.mem_filter.mp ha
          obtain ⟨k, hk⟩ := List.get?_of_mem hmem
          have hkact := h5 k a hk hw
          rw [hkact, hag] at hk
          injection hk with hk
          rw [← hk] at hpred
          simp at hpred

theorem setEntryClauses {l : List APane} {i : Nat} {ag x : APane} {np act : Nat}
    (hag : l.get? i = some ag) (hpid : x.paneId = ag.paneId) (hwin : x.window = ag.window)
    (h3 : ∀ a ∈ l, a.paneId < np) (h4 : (l.map (fun a => a.paneId)).Nodup)
    (h5 : ∀ j a, l.get? j = some a → a.window = 0 → j = act) :
    (∀ a ∈ l.set i x, a.paneId < np) ∧
    ((l.set i x).map (fun a => a.paneId)).Nodup ∧
    (∀ j a, (l.set i x).get? j = some a → a.window = 0 → j = act) := by
  have hagmem : ag ∈ l := mem_of_get?_some hag
  refine ⟨?_, ?_, ?_⟩
  · intro a ha
    rcases List.mem_or_eq_of_mem_set ha with ha | rfl
    · exact h3 a ha
    · rw [hpid]
      exact h3 ag hagmem
  · rw [List.map_set, hpid]
    have hmap : (l.map (fun a => a.paneId)).get? i = some ag.paneId := by
      rw [List.get?_map, hag]; rfl
    have hsetself : ∀ (m : List Nat) (n : Nat) (v : Nat), m.get? n = some v → m.set n v = m := by
      intro m
      induction m with
      | nil => intro n v h; exact Option.noConfusion h
      | cons b t ih =>
          intro n v h
          cases n with
          | zero =>
              injection h with h
              rw [List.set, h]
          | succ n' =>
              rw [List.set]
              rw [ih n' v (by simpa using h)]
    rw [hsetself _ i ag.paneId hmap]
    exact h4
  · intro j a hget hw
    rw [List.get?_set] at hget
    split at hget
    next hij =>
      cases hlj : l.get? j with
      | none => rw [hlj] at hget; exact Option.noConfusion hget
      | some b =>
          rw [hlj] at hget
          injection hget with hget
          rw [← hget] at hw
          rw [hwin] at hw
          have := h5 i ag hag hw
          omega
    next hij => exact h5 j a hget hw

theorem invRename (s : OState) (i : Nat) (nm : String) (hInv : Inv s) :
    Inv (renameAgent s i nm) := by
  obtain ⟨h1, h2, h3, h4, h5⟩ := hInv
  unfold renameAgent
  cases hag : s.agents.get? i with
  | none => exact ⟨h1, h2, h3, h4, h5⟩
  | some ag =>
      dsimp only
      obtain ⟨c3, c4, c5⟩ :=
        setEntryClauses (x := { ag with name := nm }) hag rfl rfl h3 h4 h5
      exact ⟨h1, h2, c3, c4, c5⟩

theorem invClaim (s : OState) (i : Nat) (p : String) (hInv : Inv s) :
    Inv (claimForAgent s i p) := by
  obtain ⟨h1, h2, h3, h4, h5⟩ := hInv
  unfold claimForAgent
  cases hag : s.agents.get? i with
  | none => exact ⟨h1, h2, h3, h4, h5⟩
  | some ag =>
      dsimp only
      obtain ⟨c3, c4, c5⟩ :=
        setEntryClauses (x := { ag with sessionPath := some p }) hag rfl rfl h3 h4 h5
      exact ⟨h1, h2, c3, c4, c5⟩

theorem reachedR_inv (env : List String) (s : OState) (h : ReachedR env s) : Inv s := by
  induction h with
  | init => exact invInit
  | create h name cmd ih => exact invCreate env _ name cmd ih
  | switch h i ih => exact invSwitch _ i ih
  | closeActive h ih => exact invCloseActive _ ih
  | renameR h i nm ih => exact invRename _ i nm ih
  | claimR h i p ih => exact invClaim _ i p ih

/-- C1 counterexample: from the initial layout, create agents b, c, d
(only d visible), close index 0 (agent b, hidden) -- which re-selects
active index 0, now the hidden agent c -- and then switch to index 1 (the
hidden agent d... the hidden pane at index 1): the code only breaks the
currently-active pane out of the main window, the active agent's pane is
hidden, so the join puts a second agent pane beside the still-visible one:
two non-control panes end up in the visible window. -/
theorem c1_counterexample :
    ¬ visCount (runOps ["gemini"]
        [Op.create "b" "gemini", Op.create "c" "gemini", Op.create "d" "gemini",
         Op.close 0, Op.switch 1]) ≤ 1 := by
  decide

/-- C1 (amended): in every state reachable from the initial one-agent
layout by createAgent, switchTo, rename and session claims, with
closeAgent restricted to the currently active index, at most one
non-control pane is in the visible window and the control (sidebar) pane
stays in the visible window.  (Unrestricted closeAgent on a background
agent can desynchronise the active index from the visible pane, after
which one switchTo joins a second pane into the visible window -- the
counterexample above.) -/
theorem c1_single_visible (env : List String) (s : OState) (h : ReachedR env s) :
    visCount s ≤ 1 ∧ s.sidebarWindow = 0 :=
  ⟨inv_visCount (reachedR_inv env s h), (reachedR_inv env s h).1⟩

/-- Witness for c1_single_visible at a concrete reachable state. -/
theorem c1_single_visible_witness :
    visCount (applyOp ["gemini"] initState (Op.create "b" "gemini")) ≤ 1 ∧
    (applyOp ["gemini"] initState (Op.create "b" "gemini")).sidebarWindow = 0 :=
  c1_single_visible ["gemini"] _ (ReachedR.create ReachedR.init "b" "gemini")

/-- C8: createAgent with a nonempty command whose executable is not on
the system aborts before any pane is allocated or any tracking state is
touched: the returned state differs from the input state only by the
transient error notification, and no agent id is returned. -/
theorem c8_command_not_found (env : List String) (s : OState) (name cmd : String)
    (hne : cmd ≠ "") (hwhich : whichOk env cmd = false) :
    (createAgent env s name cmd).2 = none ∧
    (createAgent env s name cmd).1 =
      { s with notifications :=
          s.notifications ++ ["Error: Command not found: " ++ cmd] } := by
  unfold createAgent
  rw [if_pos ⟨hne, hwhich⟩]
  exact ⟨rfl, rfl⟩

/-- Witness for c8_command_not_found: the command claude is not in an
environment offering only gemini. -/
theorem c8_command_not_found_witness :
    ("claude" : String) ≠ "" ∧ whichOk ["gemini"] "claude" = false ∧
    ((createAgent ["gemini"] initState "x" "claude").2 = none ∧
     (createAgent ["gemini"] initState "x" "claude").1 =
       { initState with notifications :=
           initState.notifications ++ ["Error: Command not found: claude"] }) :=
  ⟨by decide, rfl,
   c8_command_not_found ["gemini"] initState "x" "claude" (by decide) rfl⟩

/-- C9 counterexample: create a second agent, claim a session for it,
then close it.  The agent is removed from the store, but the claimed
session entry is still in the global claimed set (nothing ever removes
from it) and the agent's socket server is still in the started-and-never-
stopped set (action_close_agent pops the _socket_servers entry without
calling stop), refuting the release part of the claim. -/
theorem c9_counterexample :
    ((closeAgent (runOps ["gemini"]
        [Op.create "b" "gemini", Op.claimOp 1 "sess.json"]) 1).agents.map
      (fun a => a.uuid)) = [0] ∧
    (closeAgent (runOps ["gemini"]
        [Op.create "b" "gemini", Op.claimOp 1 "sess.json"]) 1).claimed
      = ["sess.json"] ∧
    (closeAgent (runOps ["gemini"]
        [Op.create "b" "gemini", Op.claimOp 1 "sess.json"]) 1).socketRunning
      = [0, 1] := by
  refine ⟨rfl, rfl, rfl⟩

/-- C9 (amended): closing a non-last agent removes it from the State
Store and drops its socket server from the tracking map, but neither
stops the socket server (the endpoint stays open) nor releases its
correlator claim (the claimed set is unchanged). -/
theorem c9_close_agent (s : OState) (i : Nat) (ag : APane)
    (hag : s.agents.get? i = some ag) (hlen : 2 ≤ s.agents.length) :
    (closeAgent s i).claimed = s.claimed ∧
    (closeAgent s i).socketRunning = s.socketRunning ∧
    (closeAgent s i).socketTracked = s.socketTracked.filter (fun u => u != ag.uuid) ∧
    ∀ a ∈ (closeAgent s i).agents, a.paneId ≠ ag.paneId := by
  have hcl : ∀ (t : OState) (k : Nat), (setActiveO t k).claimed = t.claimed := by
    intro t k; unfold setActiveO; split <;> rfl
  have hsr : ∀ (t : OState) (k : Nat), (setActiveO t k).socketRunning = t.socketRunning := by
    intro t k; unfold setActiveO; split <;> rfl
  have hst : ∀ (t : OState) (k : Nat), (setActiveO t k).socketTracked = t.socketTracked := by
    intro t k; unfold setActiveO; split <;> rfl
  have hags : ∀ (t : OState) (k : Nat), (setActiveO t k).agents = t.agents := by
    intro t k; unfold setActiveO; split <;> rfl
  unfold closeAgent
  rw [hag]
  dsimp only
  rw [if_neg (by omega : ¬ s.agents.length ≤ 1)]
  refine ⟨by rw [hcl], by rw [hsr], by rw [hst], ?_⟩
  intro a ha
  rw [hags] at ha
  have := List.of_mem_filter ha
  simpa using this

/-- Witness for c9_close_agent at the concrete two-agent state of the
counterexample. -/
theorem c9_close_agent_witness :
    ((runOps ["gemini"] [Op.create "b" "gemini", Op.claimOp 1 "sess.json"]).agents.get? 1
      = some ⟨2, "b", 0, 1, some "sess.json"⟩) ∧
    (2 ≤ (runOps ["gemini"] [Op.create "b" "gemini", Op.claimOp 1 "sess.json"]).agents.length) ∧
    ((closeAgent (runOps ["gemini"] [Op.create "b" "gemini", Op.claimOp 1 "sess.json"]) 1).claimed
        = (runOps ["gemini"] [Op.create "b" "gemini", Op.claimOp 1 "sess.json"]).claimed ∧
     (closeAgent (runOps ["gemini"] [Op.create "b" "gemini", Op.claimOp 1 "sess.json"]) 1).socketRunning
        = (runOps ["gemini"] [Op.create "b" "gemini", Op.claimOp 1 "sess.json"]).socketRunning ∧
     (closeAgent (runOps ["gemini"] [Op.create "b" "gemini", Op.claimOp 1 "sess.json"]) 1).socketTracked
        = (runOps ["gemini"] [Op.create "b" "gemini",
            Op.claimOp 1 "sess.json"]).socketTracked.filter (fun u => u != (1 : Nat)) ∧
     ∀ a ∈ (closeAgent (runOps ["gemini"] [Op.create "b" "gemini", Op.claimOp 1 "sess.json"]) 1).agents,
       a.paneId ≠ 2) :=
  ⟨rfl, by decide,
   c9_close_agent (runOps ["gemini"] [Op.create "b" "gemini", Op.claimOp 1 "sess.json"]) 1
     ⟨2, "b", 0, 1, some "sess.json"⟩ rfl (by decide)⟩

end Impromptu

